import Mathlib

/-!
Verification of the gesture-stabilizer logic of the handi-talk repository.

The development shallowly embeds the two presentation shells:

* the Android shell (`MainActivity.kt`): the 5-entry smoothing buffer in
  `onPrediction`, the label-interpretation `when` block, the suggestion
  lookup `generateWordSuggestionsForLetter`, the camera analyzer's label
  construction, and the `onUseSuggestion` / `onClearAll` UI actions;
* the web shell (`src/hooks/useHandGestureRecognition.ts`): the
  `checkAutoActions` idle/hold timeout checks, the state updates of
  `simulateGestureDetection` and `realGestureDetection`, and the sliding
  prediction buffer of `makePrediction`.

Float confidences are modelled as `ℚ` and millisecond timestamps as `ℤ`;
React state setters and the Kotlin mutable Compose state are modelled as
immediate functional state updates.
-/

/-! ## Android shell: `MainActivity.kt` -/

/-- Kotlin's `maxByOrNull` keeps the current maximum and replaces it only on a
strictly greater selector value, so the first-seen maximum wins ties.
This is the `b` / `a` accumulator step of that loop. -/
def foldMax {α : Type} (sel : α → ℚ) (x : α) (xs : List α) : α :=
  xs.foldl (fun b a => if sel b < sel a then a else b) x

/-- Kotlin `Iterable.maxByOrNull(selector)`: `none` on an empty list, otherwise
the first element attaining the maximal selector value. -/
def maxByOrNull {α : Type} (sel : α → ℚ) : List α → Option α
  | [] => none
  | x :: xs => some (foldMax sel x xs)

/-- UI state of `SignToSpeechApp` (the Compose `remember` values). -/
structure AppState where
  currentLetter : String
  sentence : String
  confidence : ℚ
  firstLetter : Option Char
  predictionBuffer : List (String × ℚ)
deriving DecidableEq, Repr

/-- The initial `remember` values of `SignToSpeechApp`. -/
def appInit : AppState :=
  { currentLetter := "...", sentence := "", confidence := 0,
    firstLetter := none, predictionBuffer := [] }

/-- The `when` block of `onPrediction` applied to an accepted winner label:
`DEL` on a non-empty sentence drops the last character, `SPACE` appends a
space, a length-1 label is appended (recording the first alphabetic character
as the uppercased `firstLetter` when none is recorded yet; Kotlin
`Char.isLetter` / `uppercaseChar` are modelled on ASCII by `Char.isAlpha` /
`Char.toUpper`), and any other label leaves the sentence unchanged. -/
def interpretLabel (sentence : String) (firstLetter : Option Char)
    (label : String) : String × Option Char :=
  if label = "DEL" ∧ sentence ≠ "" then
    (sentence.dropRight 1, firstLetter)
  else if label = "SPACE" then
    (sentence ++ " ", firstLetter)
  else if label.length = 1 then
    (sentence ++ label,
      if firstLetter = none ∧ label.front.isAlpha then some label.front.toUpper
      else firstLetter)
  else
    (sentence, firstLetter)

/-- The `onPrediction` callback of `SignToSpeechApp` (lines 217–241): while the
buffer holds fewer than 5 entries the prediction is appended and nothing else
happens; otherwise the buffered 5 entries are reduced by `maxByOrNull` on the
confidence, the buffer is cleared unconditionally, and — when the winner's
confidence reaches `predictionThreshold` — the winner is accepted and
interpreted.  Note that in this second branch the incoming prediction `p`
itself is discarded.  The second component is the accepted winner, if any. -/
def onPrediction (θ : ℚ) (st : AppState) (p : String × ℚ) :
    AppState × Option (String × ℚ) :=
  if st.predictionBuffer.length < 5 then
    ({ st with predictionBuffer := st.predictionBuffer ++ [p] }, none)
  else
    match maxByOrNull Prod.snd st.predictionBuffer with
    | none => ({ st with predictionBuffer := [] }, none)
    | some best =>
      if best.2 ≥ θ then
        let r := interpretLabel st.sentence st.firstLetter best.1
        ({ currentLetter := best.1, sentence := r.1, confidence := best.2,
           firstLetter := r.2, predictionBuffer := [] }, some best)
      else
        ({ st with predictionBuffer := [] }, none)

/-- Iterated `onPrediction` over a list of raw predictions, collecting the
accepted winners in order. -/
def runPredictions (θ : ℚ) : AppState → List (String × ℚ) →
    AppState × List (String × ℚ)
  | st, [] => (st, [])
  | st, p :: ps =>
    let r1 := onPrediction θ st p
    let r2 := runPredictions θ r1.1 ps
    (r2.1, r1.2.toList ++ r2.2)

/-- Clamp a confidence value into `[0, 1]`. -/
def clamp01 (c : ℚ) : ℚ := min (max c 0) 1

/-- Follows the spec's words (not the source): "Confidence values outside
[0,1] from the Inference Source are clamped to [0,1] before comparison" — each
incoming raw prediction is clamped on entry to the stabilizer, so both winner
selection and the threshold comparison see clamped values. -/
def onPredictionSpecClamped (θ : ℚ) (st : AppState) (p : String × ℚ) :
    AppState × Option (String × ℚ) :=
  onPrediction θ st (p.1, clamp01 p.2)

/-- Iterated `onPredictionSpecClamped`, for comparison with `runPredictions`. -/
def runPredictionsSpecClamped (θ : ℚ) : AppState → List (String × ℚ) →
    AppState × List (String × ℚ)
  | st, [] => (st, [])
  | st, p :: ps =>
    let r1 := onPredictionSpecClamped θ st p
    let r2 := runPredictionsSpecClamped θ r1.1 ps
    (r2.1, r1.2.toList ++ r2.2)

/-- The static suggestion dictionary `db` of
`generateWordSuggestionsForLetter`. -/
def db : List String :=
  ["hello", "hi", "how", "hey", "house", "help", "happy", "have",
   "good", "great", "go", "game", "give", "girl",
   "yes", "you", "yesterday", "yell",
   "no", "note", "now", "nice",
   "please", "project", "put", "play",
   "thanks", "thankyou", "today", "tomorrow"]

/-- Kotlin `String.startsWith(letter.toString(), ignoreCase = true)` for a
single-character pattern: the first character matches case-insensitively. -/
def startsWithIgnoreCase (w : String) (c : Char) : Bool :=
  match w.data with
  | [] => false
  | d :: _ => d.toLower == c.toLower

/-- `generateWordSuggestionsForLetter` (lines 477–487): the first 4 entries of
`db` whose first letter matches case-insensitively. -/
def generateWordSuggestionsForLetter (letter : Char) : List String :=
  (db.filter (fun w => startsWithIgnoreCase w letter)).take 4

/-- The `onUseSuggestion` action of `SignToSpeechApp`: `sentence = chosen`. -/
def useSuggestion (st : AppState) (chosen : String) : AppState :=
  { st with sentence := chosen }

/-- The `onClearAll` action of `SignToSpeechApp`: clears the sentence and the
recorded first letter. -/
def clearAll (st : AppState) : AppState :=
  { st with sentence := "", firstLetter := none }

/-- The label construction of the camera analyzer (lines 329–339): the 26
interpreter outputs are scanned with `withIndex().maxByOrNull { it.value }`,
and when the best value is ≥ 0 the label `('A' + idx)` (or `"?"` for an index
≥ 26) is passed to `onPrediction` together with the confidence. -/
def analyzerLabel (output : List ℚ) : Option (String × ℚ) :=
  match maxByOrNull Prod.snd output.enum with
  | none => none
  | some best =>
    if best.2 ≥ 0 then
      some ((if best.1 < 26 then String.mk [Char.ofNat ('A'.toNat + best.1)]
             else "?"), best.2)
    else none

/-! ## Web shell: `src/hooks/useHandGestureRecognition.ts` -/

/-- JavaScript truthiness of a nullable numeric timestamp: `null` and `0` are
falsy, every other number is truthy. -/
def jsTruthy : Option Int → Bool
  | none => false
  | some t => t != 0

/-- Hook state touched by the timeout logic: `lastDetectionTime`,
`spaceGestureStartTime` and `currentGesture`. -/
structure WebState where
  lastDetectionTime : Int
  spaceGestureStartTime : Option Int
  currentGesture : Option (String × ℚ)
deriving DecidableEq, Repr

/-- `checkAutoActions` (lines 77–98): fire `AUTO_SPEAK` when strictly more
than 6000 ms passed since `lastDetectionTime` (resetting it to `now`), and
fire `AUTO_CLEAR` when `spaceGestureStartTime` is truthy and strictly more
than 5000 ms old (resetting it to `null`).  The `setTimeout(…, 100)` wrappers
are modelled as immediate emissions; the two Booleans are the `AUTO_SPEAK`
and `AUTO_CLEAR` emissions of this tick. -/
def checkAutoActions (st : WebState) (now : Int) : WebState × Bool × Bool :=
  let idle :=
    if now - st.lastDetectionTime > 6000 then (now, true)
    else (st.lastDetectionTime, false)
  let hold :=
    match st.spaceGestureStartTime with
    | none => ((none : Option Int), false)
    | some t => if t ≠ 0 ∧ now - t > 5000 then (none, true) else (some t, false)
  ({ st with lastDetectionTime := idle.1, spaceGestureStartTime := hold.1 },
   idle.2, hold.2)

/-- Iterated `checkAutoActions` over a list of tick times with no predictions
submitted in between; returns the final state together with the number of
`AUTO_SPEAK` and of `AUTO_CLEAR` emissions. -/
def runTicks : WebState → List Int → WebState × Nat × Nat
  | st, [] => (st, 0, 0)
  | st, t :: ts =>
    let r1 := checkAutoActions st t
    let r2 := runTicks r1.1 ts
    (r2.1, (if r1.2.1 then 1 else 0) + r2.2.1, (if r1.2.2 then 1 else 0) + r2.2.2)

/-- The `GESTURE_MAPPING` table of the hook. -/
def GESTURE_MAPPING (i : Nat) : Option String :=
  match i with
  | 0 => some "S" | 1 => some "B" | 2 => some "C" | 3 => some "G"
  | 4 => some "L" | 5 => some "P" | 6 => some "X" | 7 => some "Y"
  | _ => none

/-- The `spaceGestureStartTime` update shared by both detection paths
(lines 207–213 and 281–287): a space gesture sets the clock when it is falsy
and keeps it otherwise; any other gesture sets it to `null`. -/
def updateHoldClock (hold : Option Int) (g : String) (now : Int) : Option Int :=
  if g = " " then (if jsTruthy hold then hold else some now) else none

/-- State update of one throttled `simulateGestureDetection` step (lines
180–218), with the randomly drawn gesture and confidence as parameters:
`lastDetectionTime` is set unconditionally, the hold clock is updated, and
the gesture is emitted. -/
def simulateGestureDetection (g : String) (c : ℚ) (now : Int) (st : WebState) :
    WebState × (String × ℚ) :=
  ({ lastDetectionTime := now,
     spaceGestureStartTime := updateHoldClock st.spaceGestureStartTime g now,
     currentGesture := some (g, c) }, (g, c))

/-- State update of one throttled `realGestureDetection` inference step
(lines 244–302) on the probability vector returned by the model: the maximal
probability is the confidence and the first index attaining it selects the
gesture; only when the confidence strictly exceeds the threshold is
`lastDetectionTime` reset, the hold clock updated, and the gesture emitted —
otherwise the state is untouched. -/
def realGestureDetection (θ : ℚ) (probs : List ℚ) (now : Int) (st : WebState) :
    WebState × Option (String × ℚ) :=
  match probs with
  | [] => (st, none)
  | x :: xs =>
    let m := xs.foldl (fun b a => if b < a then a else b) x
    let maxIndex := probs.findIdx (fun v => decide (v = m))
    if m > θ then
      let g := (GESTURE_MAPPING maxIndex).getD "UNKNOWN"
      ({ lastDetectionTime := now,
         spaceGestureStartTime := updateHoldClock st.spaceGestureStartTime g now,
         currentGesture := some (g, m) }, some (g, m))
    else (st, none)

/-- The prediction-buffer update of `makePrediction` (second hook variant,
lines 609–612): push the gesture, then `shift()` when the length exceeds
`bufferSize` — a sliding window, never cleared. -/
def bufferPush (bufferSize : Nat) (buf : List String) (g : String) :
    List String :=
  let b := buf ++ [g]
  if bufferSize < b.length then b.drop 1 else b

/-! ## Lemmas about the Kotlin `maxByOrNull` loop -/

/-- `w` is the stable argmax of `ps` under `sel`: it occurs in `ps`, every
entry strictly before its occurrence has a strictly smaller selector value,
and every entry after it has a selector value that does not exceed it. -/
def IsStableArgmax {α : Type} (sel : α → ℚ) (ps : List α) (w : α) : Prop :=
  ∃ l r, ps = l ++ w :: r ∧ (∀ a ∈ l, sel a < sel w) ∧ (∀ a ∈ r, sel a ≤ sel w)

theorem foldMax_nil {α : Type} (sel : α → ℚ) (x : α) : foldMax sel x [] = x := rfl

theorem foldMax_cons {α : Type} (sel : α → ℚ) (x y : α) (ys : List α) :
    foldMax sel x (y :: ys) = foldMax sel (if sel x < sel y then y else x) ys := rfl

theorem foldMax_stableArgmax {α : Type} (sel : α → ℚ) :
    ∀ (xs : List α) (x : α), IsStableArgmax sel (x :: xs) (foldMax sel x xs) := by
  intro xs
  induction xs with
  | nil =>
    intro x
    exact ⟨[], [], rfl, by simp, by simp⟩
  | cons y ys ih =>
    intro x
    by_cases hxy : sel x < sel y
    · have hstep : foldMax sel x (y :: ys) = foldMax sel y ys := by
        rw [foldMax_cons, if_pos hxy]
      rw [hstep]
      obtain ⟨l, r, hdec, hl, hr⟩ := ih y
      generalize hgen : foldMax sel y ys = w at hdec hl hr ⊢
      have hy_le : sel y ≤ sel w := by
        cases l with
        | nil =>
          simp only [List.nil_append, List.cons.injEq] at hdec
          exact le_of_eq (congrArg sel hdec.1)
        | cons z l2 =>
          simp only [List.cons_append, List.cons.injEq] at hdec
          have hz : sel z < sel w := hl z (by simp)
          rw [hdec.1]
          exact le_of_lt hz
      refine ⟨x :: l, r, ?_, ?_, hr⟩
      · rw [List.cons_append, ← hdec]
      · intro a ha
        rcases List.mem_cons.mp ha with rfl | ha
        · exact lt_of_lt_of_le hxy hy_le
        · exact hl a ha
    · have hstep : foldMax sel x (y :: ys) = foldMax sel x ys := by
        rw [foldMax_cons, if_neg hxy]
      rw [hstep]
      obtain ⟨l, r, hdec, hl, hr⟩ := ih x
      generalize hgen : foldMax sel x ys = w at hdec hl hr ⊢
      cases l with
      | nil =>
        simp only [List.nil_append, List.cons.injEq] at hdec
        refine ⟨[], y :: ys, ?_, by simp, ?_⟩
        · rw [List.nil_append, ← hdec.1]
        · intro a ha
          rcases List.mem_cons.mp ha with rfl | ha
          · rw [← hdec.1]; exact le_of_not_lt hxy
          · rw [hdec.2] at ha
            exact hr a ha
      | cons z l2 =>
        simp only [List.cons_append, List.cons.injEq] at hdec
        have hx_lt : sel x < sel w := by
          rw [hdec.1]
          exact hl z (by simp)
        refine ⟨x :: y :: l2, r, ?_, ?_, hr⟩
        · simp [hdec.2]
        · intro a ha
          rcases List.mem_cons.mp ha with rfl | ha
          · exact hx_lt
          · rcases List.mem_cons.mp ha with rfl | ha
            · exact lt_of_le_of_lt (le_of_not_lt hxy) hx_lt
            · exact hl a (by simp [ha])

theorem maxByOrNull_spec {α : Type} (sel : α → ℚ) (ps : List α) (w : α)
    (h : maxByOrNull sel ps = some w) : IsStableArgmax sel ps w := by
  cases ps with
  | nil => simp [maxByOrNull] at h
  | cons x xs =>
    have hw : foldMax sel x xs = w := by
      simpa [maxByOrNull] using h
    rw [← hw]
    exact foldMax_stableArgmax sel xs x

theorem maxByOrNull_mem {α : Type} (sel : α → ℚ) (ps : List α) (w : α)
    (h : maxByOrNull sel ps = some w) : w ∈ ps := by
  obtain ⟨l, r, hdec, -, -⟩ := maxByOrNull_spec sel ps w h
  rw [hdec]
  exact List.mem_append.mpr (Or.inr (List.mem_cons_self w r))

theorem maxByOrNull_isSome {α : Type} (sel : α → ℚ) (x : α) (xs : List α) :
    maxByOrNull sel (x :: xs) = some (foldMax sel x xs) := rfl

theorem maxByOrNull_replicate {α : Type} (sel : α → ℚ) (p : α) :
    ∀ n : Nat, maxByOrNull sel (List.replicate (n + 1) p) = some p := by
  have hfold : ∀ n : Nat, foldMax sel p (List.replicate n p) = p := by
    intro n
    induction n with
    | zero => rfl
    | succ n ih =>
      rw [List.replicate_succ, foldMax_cons, if_neg (lt_irrefl (sel p))]
      exact ih
  intro n
  rw [List.replicate_succ, maxByOrNull_isSome, hfold]

/-! ## Lemmas about filling and deciding the Android buffer -/

theorem runPredictions_fill (θ : ℚ) :
    ∀ (ps : List (String × ℚ)) (st : AppState),
      st.predictionBuffer.length + ps.length ≤ 5 →
      runPredictions θ st ps = ({ st with predictionBuffer := st.predictionBuffer ++ ps }, []) := by
  intro ps
  induction ps with
  | nil =>
    intro st _
    simp [runPredictions]
  | cons p ps ih =>
    intro st h
    have hlt : st.predictionBuffer.length < 5 := by
      simp only [List.length_cons] at h
      omega
    have hstep : onPrediction θ st p =
        ({ st with predictionBuffer := st.predictionBuffer ++ [p] }, none) := by
      rw [onPrediction, if_pos hlt]
    have hlen : ({ st with predictionBuffer := st.predictionBuffer ++ [p] } :
        AppState).predictionBuffer.length + ps.length ≤ 5 := by
      simp only [List.length_append, List.length_cons, List.length_nil] at h ⊢
      omega
    have := ih ({ st with predictionBuffer := st.predictionBuffer ++ [p] }) hlen
    simp [runPredictions, hstep, this]

theorem runPredictions_singleton (θ : ℚ) (st : AppState) (p : String × ℚ) :
    runPredictions θ st [p] = ((onPrediction θ st p).1, (onPrediction θ st p).2.toList) := by
  simp [runPredictions]

theorem runPredictions_append (θ : ℚ) :
    ∀ (ps qs : List (String × ℚ)) (st : AppState),
      runPredictions θ st (ps ++ qs) =
        ((runPredictions θ (runPredictions θ st ps).1 qs).1,
         (runPredictions θ st ps).2 ++ (runPredictions θ (runPredictions θ st ps).1 qs).2) := by
  intro ps
  induction ps with
  | nil => intro qs st; simp [runPredictions]
  | cons p ps ih =>
    intro qs st
    simp [runPredictions, ih]

/-- The full-window decision of `onPrediction`: from an empty buffer, the
first 5 submissions fill the buffer, and the 6th triggers the reduction over
those 5 buffered entries (discarding the 6th itself): the `maxByOrNull`
winner is accepted exactly when its confidence reaches the threshold, and
the buffer ends empty either way. -/
theorem runPredictions_decision (θ : ℚ) (st : AppState) (ps : List (String × ℚ))
    (p : String × ℚ) (hbuf : st.predictionBuffer = []) (hlen : ps.length = 5) :
    ∃ w, maxByOrNull Prod.snd ps = some w ∧
      runPredictions θ st (ps ++ [p]) =
        ((if w.2 ≥ θ then
            { currentLetter := w.1,
              sentence := (interpretLabel st.sentence st.firstLetter w.1).1,
              confidence := w.2,
              firstLetter := (interpretLabel st.sentence st.firstLetter w.1).2,
              predictionBuffer := [] }
          else { st with predictionBuffer := [] }),
         if w.2 ≥ θ then [w] else []) := by
  obtain ⟨x, xs, rfl⟩ : ∃ x xs, ps = x :: xs := by
    cases ps with
    | nil => simp at hlen
    | cons x xs => exact ⟨x, xs, rfl⟩
  refine ⟨foldMax Prod.snd x xs, rfl, ?_⟩
  have h0 : st.predictionBuffer.length + (x :: xs).length ≤ 5 := by
    simp [hbuf, hlen]
  have hfill := runPredictions_fill θ (x :: xs) st h0
  rw [hbuf] at hfill
  simp only [List.nil_append] at hfill
  rw [runPredictions_append, hfill]
  simp only [runPredictions_singleton]
  have hfull : ¬ (({ st with predictionBuffer := x :: xs } :
      AppState).predictionBuffer.length < 5) := by
    simp [hlen]
  rw [onPrediction, if_neg hfull]
  by_cases hθ : (foldMax Prod.snd x xs).2 ≥ θ
  · simp [maxByOrNull, hθ]
  · simp [maxByOrNull, hθ]

/-! ## Claim theorems -/

/-- The five raw predictions of the claims' Scenario A,
`[("A",0.9),("A",0.5),("B",0.95),("A",0.92),("A",0.3)]`. -/
def scenWindow : List (String × ℚ) :=
  [("A", mkRat 9 10), ("A", mkRat 1 2), ("B", mkRat 19 20),
   ("A", mkRat 23 25), ("A", mkRat 3 10)]

/-- C1 counterexample: submitting exactly the claim's 5 (= `bufferSize`) raw
predictions to the Android smoothing buffer with threshold 0.7 emits no
StabilizedGesture and leaves the sentence empty — no decision is taken on
the 5th submission, contradicting the claim that the winner `("B",0.95)` is
selected and `"B"` appended. -/
theorem spec_C1_counterexample :
    scenWindow.length = 5 ∧
    (runPredictions (mkRat 7 10) appInit scenWindow).2 = [] ∧
    (runPredictions (mkRat 7 10) appInit scenWindow).1.sentence = "" := by
  decide

/-- C1 amended: the decision is taken on the (bufferSize+1)-th submission,
over the 5 buffered entries (the triggering 6th prediction is discarded): the
winner is the stable argmax of the window (maximum confidence, first-seen
maximum on ties) and it is emitted iff its confidence ≥ the threshold; in
particular the scenario window followed by one further prediction yields the
winner `("B",0.95)` and appends `"B"` to the sentence. -/
theorem spec_C1_amended :
    (∀ (θ : ℚ) (st : AppState) (ps : List (String × ℚ)) (p : String × ℚ),
      st.predictionBuffer = [] → ps.length = 5 →
      ∃ w, maxByOrNull Prod.snd ps = some w ∧ IsStableArgmax Prod.snd ps w ∧
        (runPredictions θ st (ps ++ [p])).2 = (if w.2 ≥ θ then [w] else [])) ∧
    (runPredictions (mkRat 7 10) appInit (scenWindow ++ [("A", mkRat 1 10)])).2 =
      [("B", mkRat 19 20)] ∧
    (runPredictions (mkRat 7 10) appInit
      (scenWindow ++ [("A", mkRat 1 10)])).1.sentence = "B" := by
  refine ⟨?_, by decide, by decide⟩
  intro θ st ps p hbuf hlen
  obtain ⟨w, hw, heq⟩ := runPredictions_decision θ st ps p hbuf hlen
  exact ⟨w, hw, maxByOrNull_spec _ _ _ hw, by rw [heq]⟩

/-- C1 amended, witness at the scenario input. -/
theorem spec_C1_amended_witness :
    ∃ w, maxByOrNull Prod.snd scenWindow = some w ∧
      IsStableArgmax Prod.snd scenWindow w ∧
      (runPredictions (mkRat 7 10) appInit (scenWindow ++ [("A", mkRat 1 10)])).2 =
        (if w.2 ≥ mkRat 7 10 then [w] else []) :=
  spec_C1_amended.1 (mkRat 7 10) appInit scenWindow ("A", mkRat 1 10) rfl rfl

/-- C2 counterexample: after `bufferSize` (5) submissions from an empty
buffer the Android prediction window has size 5, not 0 — the window does not
return to 0 after every 5 submissions. -/
theorem spec_C2_counterexample :
    (runPredictions (mkRat 7 10) appInit scenWindow).1.predictionBuffer.length = 5 := by
  decide

/-- C2 amended: in the Android shell the window is cleared unconditionally
when the decision fires, but the decision fires on the (bufferSize+1)-th
submission: after every 6 submissions from an empty buffer the window size
returns to 0 regardless of the decision outcome, with at most one
StabilizedGesture emitted per such cycle; in the web shell's
`makePrediction` the buffer is a sliding window that stays at `bufferSize`
once full and never returns to 0. -/
theorem spec_C2_amended :
    (∀ (θ : ℚ) (st : AppState) (ps : List (String × ℚ)),
      st.predictionBuffer = [] → ps.length = 6 →
      (runPredictions θ st ps).1.predictionBuffer = [] ∧
      (runPredictions θ st ps).2.length ≤ 1) ∧
    (∀ (buf : List String) (g : String), buf.length = 5 →
      (bufferPush 5 buf g).length = 5) := by
  constructor
  · intro θ st ps hbuf hlen
    rcases List.eq_nil_or_concat' ps with rfl | ⟨ps5, p, rfl⟩
    · simp at hlen
    · have h5 : ps5.length = 5 := by
        simp only [List.length_append, List.length_cons, List.length_nil] at hlen
        omega
      obtain ⟨w, hw, heq⟩ := runPredictions_decision θ st ps5 p hbuf h5
      rw [heq]
      by_cases hθ : w.2 ≥ θ <;> simp [hθ]
  · intro buf g h
    simp [bufferPush, h]

/-- C2 amended, witness at a concrete 6-submission cycle. -/
theorem spec_C2_amended_witness :
    (runPredictions (mkRat 3 5) appInit
      (scenWindow ++ [("C", mkRat 1 4)])).1.predictionBuffer = [] ∧
    (runPredictions (mkRat 3 5) appInit (scenWindow ++ [("C", mkRat 1 4)])).2.length ≤ 1 :=
  spec_C2_amended.1 (mkRat 3 5) appInit (scenWindow ++ [("C", mkRat 1 4)]) rfl (by decide)

/-! ## Helpers for the timeout checks of `checkAutoActions` -/

theorem checkAutoActions_speak_iff (st : WebState) (now : Int) :
    (checkAutoActions st now).2.1 = true ↔ now - st.lastDetectionTime > 6000 := by
  rw [checkAutoActions]
  by_cases h : now - st.lastDetectionTime > 6000 <;> simp [h]

theorem checkAutoActions_lastDetection (st : WebState) (now : Int) :
    (checkAutoActions st now).1.lastDetectionTime =
      if now - st.lastDetectionTime > 6000 then now else st.lastDetectionTime := by
  rw [checkAutoActions]
  by_cases h : now - st.lastDetectionTime > 6000 <;> simp [h]

theorem checkAutoActions_clear_iff (st : WebState) (now : Int) :
    (checkAutoActions st now).2.2 = true ↔
      ∃ t, st.spaceGestureStartTime = some t ∧ t ≠ 0 ∧ now - t > 5000 := by
  rw [checkAutoActions]
  cases hsp : st.spaceGestureStartTime with
  | none => simp [hsp]
  | some t => by_cases h : t ≠ 0 ∧ now - t > 5000 <;> simp [hsp, h]

theorem checkAutoActions_holdState (st : WebState) (now : Int) :
    (checkAutoActions st now).1.spaceGestureStartTime =
      match st.spaceGestureStartTime with
      | none => none
      | some t => if t ≠ 0 ∧ now - t > 5000 then none else some t := by
  rw [checkAutoActions]
  cases hsp : st.spaceGestureStartTime with
  | none => simp [hsp]
  | some t => by_cases h : t ≠ 0 ∧ now - t > 5000 <;> simp [hsp, h]

/-- Quiet run: ticks never more than 6000 ms past `lastDetectionTime` emit no
`AUTO_SPEAK` and leave `lastDetectionTime` unchanged. -/
theorem runTicks_quiet :
    ∀ (ts : List Int) (st : WebState),
      (∀ t ∈ ts, t - st.lastDetectionTime ≤ 6000) →
      (runTicks st ts).2.1 = 0 ∧
      (runTicks st ts).1.lastDetectionTime = st.lastDetectionTime := by
  intro ts
  induction ts with
  | nil => intro st _; simp [runTicks]
  | cons t ts ih =>
    intro st h
    have hle : ¬ (t - st.lastDetectionTime > 6000) := not_lt.mpr (h t (by simp))
    have hld : (checkAutoActions st t).1.lastDetectionTime = st.lastDetectionTime := by
      rw [checkAutoActions_lastDetection, if_neg hle]
    have hsp : (checkAutoActions st t).2.1 = false := by
      rw [← Bool.not_eq_true, checkAutoActions_speak_iff]
      exact hle
    have ih' := ih (checkAutoActions st t).1 (by
      intro u hu
      rw [hld]
      exact h u (by simp [hu]))
    simp [runTicks, hsp, ih'.1, ih'.2, hld]

/-- C3 counterexample: with `lastDetectionTime = 0`, a tick at exactly
6000 ms — an idle period spanning exactly `idleTimeoutMs` with no
predictions — emits no `AUTO_SPEAK` at all (the guard is strict `>`), so
AutoSpeak is not emitted once per idle period of at least 6000 ms. -/
theorem spec_C3_counterexample :
    (runTicks ⟨0, none, none⟩ [6000]).2.1 = 0 ∧ (6000 : Int) - 0 ≥ 6000 := by
  decide

/-- C3 amended: `AUTO_SPEAK` fires on a tick iff strictly more than
`idleTimeoutMs` (6000 ms) elapsed since `lastDetectionTime`, and the firing
tick resets `lastDetectionTime` to `now`; ticks within the timeout fire
nothing and leave the clock alone, and once a tick fires, all subsequent
ticks up to 6000 ms past the firing tick fire nothing, so a fired idle
period emits exactly one `AUTO_SPEAK`. -/
theorem spec_C3_amended :
    (∀ (st : WebState) (now : Int),
      ((checkAutoActions st now).2.1 = true ↔ now - st.lastDetectionTime > 6000) ∧
      (now - st.lastDetectionTime > 6000 →
        (checkAutoActions st now).1.lastDetectionTime = now)) ∧
    (∀ (st : WebState) (ts : List Int),
      (∀ t ∈ ts, t - st.lastDetectionTime ≤ 6000) →
      (runTicks st ts).2.1 = 0 ∧
      (runTicks st ts).1.lastDetectionTime = st.lastDetectionTime) ∧
    (∀ (st : WebState) (t0 : Int) (ts : List Int),
      t0 - st.lastDetectionTime > 6000 → (∀ t ∈ ts, t ≤ t0 + 6000) →
      (runTicks st (t0 :: ts)).2.1 = 1) := by
  refine ⟨?_, ?_, ?_⟩
  · intro st now
    refine ⟨checkAutoActions_speak_iff st now, fun h => ?_⟩
    rw [checkAutoActions_lastDetection, if_pos h]
  · intro st ts h
    exact runTicks_quiet ts st h
  · intro st t0 ts h0 hts
    have hsp : (checkAutoActions st t0).2.1 = true :=
      (checkAutoActions_speak_iff st t0).mpr h0
    have hld : (checkAutoActions st t0).1.lastDetectionTime = t0 := by
      rw [checkAutoActions_lastDetection, if_pos h0]
    have hquiet := runTicks_quiet ts (checkAutoActions st t0).1 (by
      intro u hu
      rw [hld]
      have := hts u hu
      omega)
    simp [runTicks, hsp, hquiet.1]

/-- C3 amended, witness: one firing tick followed by two in-timeout ticks
emits exactly one `AUTO_SPEAK`. -/
theorem spec_C3_amended_witness :
    (runTicks ⟨0, none, none⟩ [6001, 7000, 12000]).2.1 = 1 :=
  spec_C3_amended.2.2 ⟨0, none, none⟩ 6001 [7000, 12000] (by decide) (by decide)

/-- C4 counterexample: with the hold clock set at 1000 and a tick at exactly
6000 — so `now - HoldClock = 5000 = holdTimeoutMs` — `AUTO_CLEAR` does not
fire: the guard is strict `>`, contradicting the claimed `≥` behaviour. -/
theorem spec_C4_counterexample :
    (checkAutoActions ⟨0, some 1000, none⟩ 6000).2.2 = false ∧
    (6000 : Int) - 1000 ≥ 5000 := by
  decide

/-- C4 amended: `AUTO_CLEAR` fires on a tick iff the hold clock holds a
nonzero timestamp strictly more than `holdTimeoutMs` (5000 ms) old (the
source guard is JavaScript-truthiness plus strict `>`); the firing tick
unsets the hold clock, an unset hold clock can never fire again until it is
set anew, and a single non-hold gesture resets the hold clock to unset while
a hold gesture sets it when unset. -/
theorem spec_C4_amended :
    (∀ (st : WebState) (now : Int),
      ((checkAutoActions st now).2.2 = true ↔
        ∃ t, st.spaceGestureStartTime = some t ∧ t ≠ 0 ∧ now - t > 5000) ∧
      ((checkAutoActions st now).2.2 = true →
        (checkAutoActions st now).1.spaceGestureStartTime = none)) ∧
    (∀ (st : WebState) (now : Int), st.spaceGestureStartTime = none →
      (checkAutoActions st now).2.2 = false ∧
      (checkAutoActions st now).1.spaceGestureStartTime = none) ∧
    (∀ (hold : Option Int) (g : String) (now : Int), g ≠ " " →
      updateHoldClock hold g now = none) ∧
    (∀ now : Int, updateHoldClock none " " now = some now) := by
  refine ⟨?_, ?_, ?_, ?_⟩
  · intro st now
    refine ⟨checkAutoActions_clear_iff st now, fun h => ?_⟩
    obtain ⟨t, hsp, ht, hgt⟩ := (checkAutoActions_clear_iff st now).mp h
    rw [checkAutoActions_holdState, hsp]
    simp [ht, hgt]
  · intro st now h
    constructor
    · rw [← Bool.not_eq_true, checkAutoActions_clear_iff]
      rintro ⟨t, hsp, -, -⟩
      rw [h] at hsp
      exact Option.noConfusion hsp
    · rw [checkAutoActions_holdState, h]
  · intro hold g now h
    rw [updateHoldClock, if_neg h]
  · intro now
    rfl

/-- C4 amended, witness: a fired hold check unsets the hold clock. -/
theorem spec_C4_amended_witness :
    (checkAutoActions ⟨0, some 1, none⟩ 6000).1.spaceGestureStartTime = none :=
  (spec_C4_amended.1 ⟨0, some 1, none⟩ 6000).2 (by decide)

/-- A 6-submission cycle whose window holds two out-of-range confidences,
`[("B",1.2),("A",1.5),("C",0),("C",0),("C",0)]` plus the triggering 6th. -/
def overWindow : List (String × ℚ) :=
  [("B", mkRat 6 5), ("A", mkRat 3 2), ("C", 0), ("C", 0), ("C", 0), ("X", 0)]

/-- C5 counterexample: the stabilizer does not clamp confidences.  On a
window with confidences 1.2 and 1.5, the code emits `("A",1.5)` — an
out-of-range confidence, selected by comparing the raw values — while the
clamped-on-entry pipeline described by the claim would emit `("B",1)`
(both clamp to 1 and the first-seen maximum wins). -/
theorem spec_C5_counterexample :
    (runPredictions (mkRat 3 5) appInit overWindow).2 = [("A", mkRat 3 2)] ∧
    (runPredictionsSpecClamped (mkRat 3 5) appInit overWindow).2 = [("B", 1)] ∧
    ¬ (mkRat 3 2 ≤ 1) := by
  decide

/-- C5 amended: out-of-range confidences are neither rejected nor clamped:
they are appended to the window and used as-is in selection, threshold
comparison and the emitted gesture.  For any threshold in `(0, 1]` (both
shells' defaults) the threshold test itself is unaffected by clamping —
`clamp01 c ≥ θ ↔ c ≥ θ` — which is why the missing clamp changes the winner
and the reported confidence but not whether a given winner passes. -/
theorem spec_C5_amended :
    (∀ θ c : ℚ, 0 < θ → θ ≤ 1 → (clamp01 c ≥ θ ↔ c ≥ θ)) ∧
    (∀ (θ : ℚ) (st : AppState) (p : String × ℚ),
      st.predictionBuffer.length < 5 →
      onPrediction θ st p =
        ({ st with predictionBuffer := st.predictionBuffer ++ [p] }, none)) := by
  constructor
  · intro θ c hθ0 hθ1
    rw [ge_iff_le, ge_iff_le, clamp01, le_min_iff, le_max_iff]
    constructor
    · rintro ⟨h | h, -⟩
      · exact h
      · linarith
    · intro h
      exact ⟨Or.inl h, hθ1⟩
  · intro θ st p h
    rw [onPrediction, if_pos h]

/-- C5 amended, witness: an out-of-range confidence passes the default
threshold exactly as its clamped value does, and is buffered unclamped. -/
theorem spec_C5_amended_witness :
    (clamp01 (mkRat 3 2) ≥ mkRat 3 5 ↔ mkRat 3 2 ≥ mkRat 3 5) ∧
    onPrediction (mkRat 3 5) appInit ("A", mkRat 3 2) =
      ({ appInit with predictionBuffer := appInit.predictionBuffer ++ [("A", mkRat 3 2)] },
       none) :=
  ⟨spec_C5_amended.1 (mkRat 3 5) (mkRat 3 2) (by decide) (by decide),
   spec_C5_amended.2 (mkRat 3 5) appInit ("A", mkRat 3 2) (by decide)⟩

/-- C6 counterexample: a real-model inference cycle at time 99 whose maximal
probability 0.5 does not exceed the 0.7 threshold leaves the whole state —
including `lastDetectionTime` — unchanged, so a below-threshold prediction
does not reset the idle clock. -/
theorem spec_C6_counterexample :
    realGestureDetection (mkRat 7 10) [mkRat 1 2] 99 ⟨0, none, none⟩ =
      (⟨0, none, none⟩, none) := by
  decide

/-- C6 amended: in the demo path every simulated prediction resets the idle
clock to `now` unconditionally; in the real-model path the idle clock is
reset exactly when the maximal probability strictly exceeds the threshold,
and a below-or-at-threshold inference leaves the state untouched and emits
nothing. -/
theorem spec_C6_amended :
    (∀ (g : String) (c : ℚ) (now : Int) (st : WebState),
      (simulateGestureDetection g c now st).1.lastDetectionTime = now) ∧
    (∀ (θ x : ℚ) (xs : List ℚ) (now : Int) (st : WebState),
      (List.foldl (fun b a => if b < a then a else b) x xs > θ →
        (realGestureDetection θ (x :: xs) now st).1.lastDetectionTime = now) ∧
      (¬ List.foldl (fun b a => if b < a then a else b) x xs > θ →
        realGestureDetection θ (x :: xs) now st = (st, none))) := by
  constructor
  · intro g c now st
    rfl
  · intro θ x xs now st
    constructor
    · intro h
      rw [realGestureDetection]
      simp [h]
    · intro h
      rw [realGestureDetection]
      simp [h]

/-- C6 amended, witness: a below-threshold real-model inference at time 5
leaves a state with idle clock 3 unchanged. -/
theorem spec_C6_amended_witness :
    realGestureDetection (mkRat 7 10) [mkRat 2 5] 5 ⟨3, none, none⟩ =
      (⟨3, none, none⟩, none) :=
  (spec_C6_amended.2 (mkRat 7 10) (mkRat 2 5) [] 5 ⟨3, none, none⟩).2 (by decide)

/-- C7: accepting the label `"g"` while no first letter is recorded appends
`"g"` to the sentence and records the first letter as uppercase `'G'`; the
suggestion lookup for `'G'` (and for `'g'`) returns exactly
`["good","great","go","game"]` — the first 4 case-insensitive matches of the
dictionary in dictionary order — and no lookup ever returns more than 4
words. -/
theorem spec_C7 :
    (∀ s : String, interpretLabel s none "g" = (s ++ "g", some 'G')) ∧
    generateWordSuggestionsForLetter 'G' = ["good", "great", "go", "game"] ∧
    generateWordSuggestionsForLetter 'g' = ["good", "great", "go", "game"] ∧
    (∀ c : Char, (generateWordSuggestionsForLetter c).length ≤ 4) := by
  refine ⟨?_, by decide, by decide, ?_⟩
  · intro s
    rw [interpretLabel]
    rw [if_neg (by rintro ⟨hcontra, -⟩; revert hcontra; decide)]
    rw [if_neg (by decide)]
    rw [if_pos (by decide)]
    rw [if_pos ⟨rfl, by decide⟩]
    have hg : "g".front.toUpper = 'G' := by decide
    rw [hg]
  · intro c
    rw [generateWordSuggestionsForLetter]
    exact List.length_take_le 4 _

/-- The `DEL` branch of the `when` block on a non-empty sentence. -/
theorem interpretLabel_DEL (s : String) (fl : Option Char) (hs : s ≠ "") :
    interpretLabel s fl "DEL" = (s.dropRight 1, fl) := by
  rw [interpretLabel, if_pos ⟨rfl, hs⟩]

/-- C8: an accepted `DEL` gesture removes exactly the last character of a
non-empty sentence (a full `DEL` window over sentence `"HI"` yields `"H"`),
and on an empty sentence it is a no-op rather than an error. -/
theorem spec_C8 :
    (∀ (s : String) (fl : Option Char), s ≠ "" →
      interpretLabel s fl "DEL" = (s.dropRight 1, fl)) ∧
    (∀ fl : Option Char, interpretLabel "" fl "DEL" = ("", fl)) ∧
    (∀ (θ c conf0 : ℚ) (cl : String) (fl : Option Char), c ≥ θ →
      onPrediction θ ⟨cl, "HI", conf0, fl, List.replicate 5 ("DEL", c)⟩ ("X", 0) =
        (⟨"DEL", "H", c, fl, []⟩, some ("DEL", c))) := by
  refine ⟨interpretLabel_DEL, ?_, ?_⟩
  · intro fl
    rw [interpretLabel]
    rw [if_neg (by rintro ⟨-, hcontra⟩; exact hcontra rfl)]
    rw [if_neg (by decide), if_neg (by decide)]
  · intro θ c conf0 cl fl hθ
    have hmax : maxByOrNull Prod.snd (List.replicate 5 ("DEL", c)) = some ("DEL", c) :=
      maxByOrNull_replicate Prod.snd ("DEL", c) 4
    rw [onPrediction]
    rw [if_neg (by simp)]
    simp only [hmax]
    rw [if_pos hθ]
    rw [interpretLabel_DEL "HI" fl (by decide)]
    have hH : "HI".dropRight 1 = "H" := by decide
    simp [hH]

/-- C8, witness at the scenario inputs. -/
theorem spec_C8_witness :
    interpretLabel "HI" none "DEL" = ("HI".dropRight 1, none) ∧
    onPrediction (mkRat 3 5)
        ⟨"...", "HI", 0, none, List.replicate 5 ("DEL", mkRat 9 10)⟩ ("X", 0) =
      (⟨"DEL", "H", mkRat 9 10, none, []⟩, some ("DEL", mkRat 9 10)) :=
  ⟨spec_C8.1 "HI" none (by decide),
   spec_C8.2.2 (mkRat 3 5) (mkRat 9 10) 0 "..." none (by decide)⟩

/-- The 26 single-character uppercase labels `"A"`…`"Z"` the analyzer can
build from an index below 26. -/
def letterLabels : List String :=
  ["A", "B", "C", "D", "E", "F", "G", "H", "I", "J", "K", "L", "M",
   "N", "O", "P", "Q", "R", "S", "T", "U", "V", "W", "X", "Y", "Z"]

/-- C9: on a 26-entry interpreter output every label the camera analyzer
passes to `onPrediction` is a single uppercase letter `"A"`…`"Z"` or the
string `"?"`, and in particular is never `"DEL"` or `"SPACE"` — those
branches of the sentence-update logic are unreachable from the analyzer. -/
theorem spec_C9 (output : List ℚ) (lbl : String) (conf : ℚ)
    (hlen : output.length = 26) (h : analyzerLabel output = some (lbl, conf)) :
    (lbl ∈ letterLabels ∨ lbl = "?") ∧ lbl ≠ "DEL" ∧ lbl ≠ "SPACE" := by
  rw [analyzerLabel] at h
  cases hmax : maxByOrNull Prod.snd output.enum with
  | none =>
    simp only [hmax] at h
    exact Option.noConfusion h
  | some best =>
    obtain ⟨idx, v⟩ := best
    simp only [hmax] at h
    by_cases hge : v ≥ 0
    · rw [if_pos hge] at h
      have hidx : idx < 26 := by
        have hmem : (idx, v) ∈ output.enum := maxByOrNull_mem _ _ _ hmax
        rw [List.mem_enum_iff_getElem?] at hmem
        have hbound := (List.getElem?_eq_some.mp hmem).1
        omega
      simp only [Option.some.injEq, Prod.mk.injEq] at h
      rw [← h.1, if_pos hidx]
      interval_cases idx <;> decide
    · rw [if_neg hge] at h
      exact Option.noConfusion h

set_option maxRecDepth 4000 in
/-- C9, witness on a concrete 26-entry output. -/
theorem spec_C9_witness :
    ("A" ∈ letterLabels ∨ "A" = "?") ∧ "A" ≠ "DEL" ∧ "A" ≠ "SPACE" :=
  spec_C9 (List.replicate 26 0) "A" 0 (by decide) (by decide)

/-- A recorded first letter survives label interpretation: no accepted label
ever resets it. -/
theorem interpretLabel_keepsFirst (s : String) (c : Char) (lbl : String) :
    (interpretLabel s (some c) lbl).2 = some c := by
  rw [interpretLabel]
  by_cases h1 : lbl = "DEL" ∧ s ≠ ""
  · rw [if_pos h1]
  · rw [if_neg h1]
    by_cases h2 : lbl = "SPACE"
    · rw [if_pos h2]
    · rw [if_neg h2]
      by_cases h3 : lbl.length = 1
      · rw [if_pos h3]
        have hne : ¬ ((some c : Option Char) = none ∧ lbl.front.isAlpha = true) := by
          rintro ⟨hcontra, -⟩
          exact Option.noConfusion hcontra
        rw [if_neg hne]
      · rw [if_neg h3]

/-- C10: choosing a suggestion replaces the whole sentence with the chosen
word and leaves the recorded first letter unchanged; the explicit clear
action resets the sentence and the first letter, and the prediction pathway
never resets a recorded first letter to null. -/
theorem spec_C10 :
    (∀ (st : AppState) (chosen : String),
      (useSuggestion st chosen).sentence = chosen ∧
      (useSuggestion st chosen).firstLetter = st.firstLetter) ∧
    (∀ st : AppState, (clearAll st).sentence = "" ∧ (clearAll st).firstLetter = none) ∧
    (∀ (θ : ℚ) (st : AppState) (p : String × ℚ), st.firstLetter ≠ none →
      (onPrediction θ st p).1.firstLetter ≠ none) := by
  refine ⟨fun st chosen => ⟨rfl, rfl⟩, fun st => ⟨rfl, rfl⟩, ?_⟩
  intro θ st p h
  obtain ⟨c, hc⟩ := Option.ne_none_iff_exists'.mp h
  rw [onPrediction]
  by_cases hlt : st.predictionBuffer.length < 5
  · rw [if_pos hlt]
    simpa using h
  · rw [if_neg hlt]
    cases hmax : maxByOrNull Prod.snd st.predictionBuffer with
    | none => simpa [hmax] using h
    | some best =>
      simp only [hmax]
      by_cases hθ : best.2 ≥ θ
      · rw [if_pos hθ]
        simp [hc, interpretLabel_keepsFirst]
      · rw [if_neg hθ]
        simpa using h

/-- C10, witness: one prediction submitted while `'A'` is recorded leaves
the first letter recorded. -/
theorem spec_C10_witness :
    (onPrediction (mkRat 3 5) ⟨"...", "", 0, some 'A', []⟩
      ("B", mkRat 1 2)).1.firstLetter ≠ none :=
  spec_C10.2.2 (mkRat 3 5) ⟨"...", "", 0, some 'A', []⟩ ("B", mkRat 1 2) (by decide)
